import Mathlib

/-
  Verification development for the clock-os firmware (src/src/main.cpp).

  The definitions below are a shallow embedding of the firmware code:
  the persistent-settings loaders, the differential ring renderer
  (clearHands / drawHands / drawMarkers / drawClockFace), and the three
  menu state machines, translated statement by statement from the C source.
  Machine bytes are modelled as Nat with explicit masking / mod where the
  C code relies on 8-bit wraparound.  EEPROM is modelled as a function
  from byte offsets to byte values.  The raw C array access into the
  factory-default table is modelled with List.get?, so an out-of-bounds
  access shows up as Option.none.
-/

namespace ClockOS

/-- FaceColors holds the four appearance bytes of one clock face:
the marker byte and the hours / minutes / seconds hand bytes
(globals hoursMarkerColor, hoursColor, minutesColor, secondsColor). -/
structure FaceColors where
  hoursMarkerColor : Nat
  hoursColor : Nat
  minutesColor : Nat
  secondsColor : Nat
deriving DecidableEq

/-- The DEFAULT_FACTORY_COLORS table from main.cpp lines 294-313, one row per
clock face, each row (marker, hours, minutes, seconds).  The byte values are
the evaluated macro combinations, e.g. row 0 marker byte is
COLOR_BLUE|MARKER_HOUR_EVERY = 0x04|0x10 = 0x14. -/
def DEFAULT_FACTORY_COLORS : List FaceColors :=
  [⟨0x14, 0x16, 0x12, 0x11⟩,
   ⟨0x25, 0x46, 0x12, 0x21⟩,
   ⟨0x14, 0x20, 0x20, 0x41⟩,
   ⟨0x21, 0x20, 0x20, 0x44⟩,
   ⟨0x43, 0x20, 0x42, 0x44⟩,
   ⟨0x00, 0x20, 0x20, 0x21⟩,
   ⟨0x00, 0x24, 0x22, 0x21⟩,
   ⟨0x00, 0x20, 0x20, 0x41⟩,
   ⟨0x14, 0x46, 0x42, 0x41⟩,
   ⟨0x00, 0x40, 0x42, 0x41⟩]

/-- Result of loadSettingsOrFactoryDefaults: the global settings read from
EEPROM offsets 0, 1 and 2. -/
structure GlobalSettings where
  clockFace : Nat
  ledSegmentsSettings : Nat
  ledSegmentsToggleSeconds : Nat
deriving DecidableEq

/-- loadSettingsOrFactoryDefaults from main.cpp lines 1389-1406.
Note the validation is `clockFace > DEFAULT_FACTORY_CLOCK_FACES`, i.e.
`> 10`, exactly as in the source. -/
def loadSettingsOrFactoryDefaults (eeprom : Nat → Nat) : GlobalSettings :=
  let clockFace := eeprom 0
  let clockFace := if clockFace > 10 then 0 else clockFace
  let ledSegmentsSettings := eeprom 1
  let ledSegmentsToggleSeconds := eeprom 2
  let ledSegmentsToggleSeconds :=
    if ledSegmentsToggleSeconds = 0 then 5 else ledSegmentsToggleSeconds
  ⟨clockFace, ledSegmentsSettings, ledSegmentsToggleSeconds⟩

/-- loadFaceSettingsOrFactoryDefaults from main.cpp lines 1408-1422.
Reads the four appearance bytes of the selected face from EEPROM offsets
10 + 10*clockFace .. +3 and substitutes the factory-default row when all
four bytes are zero.  The C array access DEFAULT_FACTORY_COLORS[clockFace]
is modelled with List.get?: a none result is an out-of-bounds access. -/
def loadFaceSettingsOrFactoryDefaults (eeprom : Nat → Nat) (clockFace : Nat) :
    Option FaceColors :=
  let hoursMarkerColor := eeprom (10 + clockFace * 10)
  let hoursColor := eeprom (10 + clockFace * 10 + 1)
  let minutesColor := eeprom (10 + clockFace * 10 + 2)
  let secondsColor := eeprom (10 + clockFace * 10 + 3)
  if hoursMarkerColor = 0 ∧ hoursColor = 0 ∧ minutesColor = 0 ∧ secondsColor = 0 then
    DEFAULT_FACTORY_COLORS.get? clockFace
  else
    some ⟨hoursMarkerColor, hoursColor, minutesColor, secondsColor⟩

/-- An EEPROM image whose byte at offset 0 (the stored face index) is 10 and
whose every other byte is 0 (so every face record reads back all-zero). -/
def eepromFace10 : Nat → Nat := fun addr => if addr = 0 then 10 else 0

/-- An EEPROM image that is entirely zero. -/
def zeroEeprom : Nat → Nat := fun _ => 0

/-- One LED-ring command emitted over the serial link (main.cpp ledWrite and
ledWriteAllInRingOff).  `write ringMask pos color` is the 0xF1 frame setting
`pos` to `color` in every ring of `ringMask`; `off ringMask` is the 0xF5
frame turning every LED of the masked rings off.  Ring mask bits:
seconds = 1, minutes = 2, hours = 4. -/
inductive RingCmd where
  | write (ringMask pos color : Nat)
  | off (ringMask : Nat)
deriving DecidableEq

/-- The LED ring display state: ring bit index (0 = seconds, 1 = minutes,
2 = hours) and position 0-59 to the colour currently lit (0 = off). -/
def Display := Nat → Nat → Nat

/-- The display with every LED off. -/
def allOffDisplay : Display := fun _ _ => 0

/-- Whether a ring mask selects the ring with the given bit index. -/
def inRing (ringMask ringBit : Nat) : Bool := Nat.testBit ringMask ringBit

/-- Effect of a single ring command on the display. -/
def applyRingCmd (d : Display) : RingCmd → Display
  | .write ringMask pos color =>
      fun rb p => if inRing ringMask rb = true ∧ p = pos then color else d rb p
  | .off ringMask =>
      fun rb p => if inRing ringMask rb = true then 0 else d rb p

/-- Effect of a command list on the display, first command first. -/
def applyRingCmds (d : Display) (cs : List RingCmd) : Display :=
  cs.foldl applyRingCmd d

/-- The commands of one hand block of clearHands (main.cpp lines 1043-1114).
`color` is the hand appearance byte, `cur`/`prev` the current and previous
hand value, `ringMask` the hand ring (hours 4 / minutes 2 / seconds 1) and
`handsClearMask` the mask used by the hands-style clear (hours 6, minutes 7,
seconds 7).  The style bits are tested in the source order trace (bit 6),
dot (bit 5), hands (bit 4).  The trace descending loop
`for r = prev; r > cur; r--` becomes a map over List.range (prev - cur). -/
def clearHandBlock (color cur prev ringMask handsClearMask : Nat) : List RingCmd :=
  if color &&& 0x0f ≠ 0 then
    if cur ≠ prev then
      if Nat.testBit color 6 then
        if cur = 0 then
          [RingCmd.off ringMask]
        else
          (List.range (prev - cur)).map (fun i => RingCmd.write ringMask (prev - i) 0)
      else if Nat.testBit color 5 then
        [RingCmd.write ringMask prev 0]
      else if Nat.testBit color 4 then
        [RingCmd.write handsClearMask prev 0]
      else []
    else []
  else []

/-- Hand is one of the three clock hands. -/
inductive Hand where
  | hours
  | minutes
  | seconds
deriving DecidableEq

/-- The appearance byte of a hand. -/
def handColor (a : FaceColors) : Hand → Nat
  | .hours => a.hoursColor
  | .minutes => a.minutesColor
  | .seconds => a.secondsColor

/-- The ring mask of a hand (its own ring only). -/
def handRingMask : Hand → Nat
  | .hours => 4
  | .minutes => 2
  | .seconds => 1

/-- The ring bit index of a hand (bit of its ring mask). -/
def handRingBit : Hand → Nat
  | .hours => 2
  | .minutes => 1
  | .seconds => 0

/-- The current value of a hand given the render inputs. -/
def handCur (hoursHand minutes seconds : Nat) : Hand → Nat
  | .hours => hoursHand
  | .minutes => minutes
  | .seconds => seconds

/-- The previous value of a hand given the previous render inputs. -/
def handPrev (prevHoursHand prevMinutes prevSeconds : Nat) : Hand → Nat
  | .hours => prevHoursHand
  | .minutes => prevMinutes
  | .seconds => prevSeconds

/-- The clear-phase commands of one hand, matching the three blocks of
clearHands in source order (hours block, minutes block, seconds block). -/
def handClearCmds (a : FaceColors)
    (hoursHand prevHoursHand minutes prevMinutes seconds prevSeconds : Nat) :
    Hand → List RingCmd
  | .hours => clearHandBlock a.hoursColor hoursHand prevHoursHand 4 6
  | .minutes => clearHandBlock a.minutesColor minutes prevMinutes 2 7
  | .seconds => clearHandBlock a.secondsColor seconds prevSeconds 1 7

/-- clearHands from main.cpp lines 1043-1114: the hours block, then the
minutes block, then the seconds block. -/
def clearHands (a : FaceColors)
    (hoursHand prevHoursHand minutes prevMinutes seconds prevSeconds : Nat) :
    List RingCmd :=
  handClearCmds a hoursHand prevHoursHand minutes prevMinutes seconds prevSeconds .hours
    ++ handClearCmds a hoursHand prevHoursHand minutes prevMinutes seconds prevSeconds .minutes
    ++ handClearCmds a hoursHand prevHoursHand minutes prevMinutes seconds prevSeconds .seconds

/-- The ascending trace fill loop `for r = start; r <= cur; r++` of drawHands
as a list of write commands. -/
def traceFill (ringMask start cur color : Nat) : List RingCmd :=
  (List.range (cur + 1 - start)).map (fun i => RingCmd.write ringMask (start + i) color)

/-- The minutes block of drawHands (main.cpp lines 1121-1158): trace fill with
redraws under the seconds-hands and hours-hands positions, or a dot on the
minutes ring, or a hands write on all three rings. -/
def drawMinutesPart (a : FaceColors)
    (hoursHand prevHoursHand minutes prevMinutes seconds prevSeconds : Nat) :
    List RingCmd :=
  if a.minutesColor &&& 0x0f ≠ 0 then
    if Nat.testBit a.minutesColor 6 then
      (if minutes ≠ prevMinutes ∧ (minutes > 0 ∨ a.hoursMarkerColor &&& 0x0f = 0) then
        traceFill 2 (if minutes ≤ 1 then minutes else prevMinutes) minutes
          (a.minutesColor &&& 0x0f)
      else [])
      ++ (if a.secondsColor &&& 0x0f ≠ 0 ∧ Nat.testBit a.secondsColor 4 ∧
            seconds ≠ prevSeconds ∧ minutes ≥ prevSeconds ∧ prevSeconds > 0 then
          [RingCmd.write 2 prevSeconds (a.minutesColor &&& 0x0f)]
        else [])
      ++ (if a.hoursColor &&& 0x0f ≠ 0 ∧ Nat.testBit a.hoursColor 4 ∧
            hoursHand ≠ prevHoursHand ∧ minutes ≥ prevHoursHand ∧ prevHoursHand > 0 then
          [RingCmd.write 2 prevHoursHand (a.minutesColor &&& 0x0f)]
        else [])
    else if Nat.testBit a.minutesColor 5 then
      if minutes ≠ prevMinutes ∨ minutes = prevSeconds ∨ minutes = prevHoursHand then
        [RingCmd.write 2 minutes (a.minutesColor &&& 0x0f)]
      else []
    else if Nat.testBit a.minutesColor 4 then
      if minutes ≠ prevMinutes ∨ minutes = prevSeconds ∨ minutes = prevHoursHand then
        [RingCmd.write 7 minutes (a.minutesColor &&& 0x0f)]
      else []
    else []
  else []

/-- The hours block of drawHands (main.cpp lines 1160-1196). -/
def drawHoursPart (a : FaceColors)
    (hoursHand prevHoursHand minutes prevMinutes seconds prevSeconds : Nat) :
    List RingCmd :=
  if a.hoursColor &&& 0x0f ≠ 0 then
    if Nat.testBit a.hoursColor 6 then
      (if hoursHand ≠ prevHoursHand ∧ (hoursHand > 0 ∨ a.hoursMarkerColor &&& 0x0f = 0) then
        traceFill 4 (if hoursHand ≤ 1 then hoursHand else prevHoursHand) hoursHand
          (a.hoursColor &&& 0x0f)
      else [])
      ++ (if a.minutesColor &&& 0x0f ≠ 0 ∧ Nat.testBit a.minutesColor 4 ∧
            minutes ≠ prevMinutes ∧ hoursHand ≥ prevMinutes ∧ prevMinutes > 0 then
          [RingCmd.write 4 prevMinutes (a.hoursColor &&& 0x0f)]
        else [])
      ++ (if a.secondsColor &&& 0x0f ≠ 0 ∧ Nat.testBit a.secondsColor 4 ∧
            seconds ≠ prevSeconds ∧ hoursHand ≥ prevSeconds ∧ prevSeconds > 0 then
          [RingCmd.write 4 prevSeconds (a.hoursColor &&& 0x0f)]
        else [])
    else if Nat.testBit a.hoursColor 5 then
      if hoursHand ≠ prevHoursHand ∨ hoursHand = prevMinutes ∨ hoursHand = prevSeconds then
        [RingCmd.write 4 hoursHand (a.hoursColor &&& 0x0f)]
      else []
    else if Nat.testBit a.hoursColor 4 then
      if hoursHand ≠ prevHoursHand ∨ hoursHand = prevMinutes ∨ hoursHand = prevSeconds then
        [RingCmd.write 6 hoursHand (a.hoursColor &&& 0x0f)]
      else []
    else []
  else []

/-- The seconds block of drawHands (main.cpp lines 1198-1225). -/
def drawSecondsPart (a : FaceColors)
    (hoursHand prevHoursHand minutes prevMinutes seconds prevSeconds : Nat) :
    List RingCmd :=
  if a.secondsColor &&& 0x0f ≠ 0 then
    if Nat.testBit a.secondsColor 6 then
      (if seconds ≠ prevSeconds ∧ (seconds > 0 ∨ a.hoursMarkerColor &&& 0x0f = 0) then
        traceFill 1 (if seconds ≤ 1 then seconds else prevSeconds) seconds
          (a.secondsColor &&& 0x0f)
      else [])
      ++ (if a.minutesColor &&& 0x0f ≠ 0 ∧ Nat.testBit a.minutesColor 4 ∧
            minutes ≠ prevMinutes ∧ seconds ≥ prevMinutes ∧ prevMinutes > 0 then
          [RingCmd.write 1 prevMinutes (a.secondsColor &&& 0x0f)]
        else [])
    else if Nat.testBit a.secondsColor 5 then
      if seconds ≠ prevSeconds ∨ seconds = prevMinutes then
        [RingCmd.write 1 seconds (a.secondsColor &&& 0x0f)]
      else []
    else if Nat.testBit a.secondsColor 4 then
      if seconds ≠ prevSeconds ∨ seconds = prevMinutes then
        [RingCmd.write 7 seconds (a.secondsColor &&& 0x0f)]
      else []
    else []
  else []

/-- The draw-phase commands of one hand (its block of drawHands). -/
def handDrawCmds (a : FaceColors)
    (hoursHand prevHoursHand minutes prevMinutes seconds prevSeconds : Nat) :
    Hand → List RingCmd
  | .hours => drawHoursPart a hoursHand prevHoursHand minutes prevMinutes seconds prevSeconds
  | .minutes => drawMinutesPart a hoursHand prevHoursHand minutes prevMinutes seconds prevSeconds
  | .seconds => drawSecondsPart a hoursHand prevHoursHand minutes prevMinutes seconds prevSeconds

/-- drawHands from main.cpp lines 1118-1226: the minutes block, then the
hours block, then the seconds block (the source priority order). -/
def drawHands (a : FaceColors)
    (hoursHand prevHoursHand minutes prevMinutes seconds prevSeconds : Nat) :
    List RingCmd :=
  handDrawCmds a hoursHand prevHoursHand minutes prevMinutes seconds prevSeconds .minutes
    ++ handDrawCmds a hoursHand prevHoursHand minutes prevMinutes seconds prevSeconds .hours
    ++ handDrawCmds a hoursHand prevHoursHand minutes prevMinutes seconds prevSeconds .seconds

/-- The base ring mask a marker starts from at a position (drawHourMarkers
lines 959-966): all three rings at 0, minutes+seconds at the quarters,
the seconds ring elsewhere. -/
def markerBase (pos : Nat) : Nat :=
  if pos = 0 then 7
  else if pos = 15 ∨ pos = 30 ∨ pos = 45 then 3
  else 1

/-- The occluded marker mask at a position: the base mask intersected
sequentially by the seconds, minutes and hours hand occlusion rules of
drawHourMarkers (main.cpp lines 968-1017). -/
def markerMaskAt (a : FaceColors) (hoursHand minutes seconds pos : Nat) : Nat :=
  let m0 := markerBase pos
  let m1 :=
    if a.secondsColor &&& 0x0f ≠ 0 ∧ seconds = pos then
      if Nat.testBit a.secondsColor 6 then (if seconds > 0 then m0 &&& 6 else m0)
      else if Nat.testBit a.secondsColor 5 then m0 &&& 6
      else if Nat.testBit a.secondsColor 4 then 0
      else m0
    else m0
  let m2 :=
    if a.minutesColor &&& 0x0f ≠ 0 ∧ minutes = pos then
      if Nat.testBit a.minutesColor 6 then (if minutes > 0 then m1 &&& 5 else m1)
      else if Nat.testBit a.minutesColor 5 then m1 &&& 5
      else if Nat.testBit a.minutesColor 4 then 0
      else m1
    else m1
  if a.hoursColor &&& 0x0f ≠ 0 ∧ hoursHand = pos then
    if Nat.testBit a.hoursColor 6 then (if hoursHand > 0 then m2 &&& 3 else m2)
    else if Nat.testBit a.hoursColor 5 then m2 &&& 3
    else if Nat.testBit a.hoursColor 4 then m2 &&& 1
    else m2
  else m2

/-- drawHourMarkers from main.cpp lines 958-1023: iterate positions
0, steps, 2*steps, ... below 60 and write the marker colour with the
occluded mask whenever the mask is nonzero. -/
def drawHourMarkers (a : FaceColors) (hoursHand minutes seconds steps drawColor : Nat) :
    List RingCmd :=
  ((List.range 60).filter (fun p => p % steps = 0)).filterMap (fun p =>
    if markerMaskAt a hoursHand minutes seconds p ≠ 0 then
      some (RingCmd.write (markerMaskAt a hoursHand minutes seconds p) p drawColor)
    else none)

/-- drawMarkers from main.cpp lines 1027-1037: pick the step from the marker
density bit (every hour = 5, quarters = 15, twelfth only = 60). -/
def drawMarkers (a : FaceColors) (hoursHand minutes seconds : Nat) : List RingCmd :=
  if a.hoursMarkerColor &&& 0x0f ≠ 0 then
    if Nat.testBit a.hoursMarkerColor 4 then
      drawHourMarkers a hoursHand minutes seconds 5 (a.hoursMarkerColor &&& 0x0f)
    else if Nat.testBit a.hoursMarkerColor 5 then
      drawHourMarkers a hoursHand minutes seconds 15 (a.hoursMarkerColor &&& 0x0f)
    else if Nat.testBit a.hoursMarkerColor 6 then
      drawHourMarkers a hoursHand minutes seconds 60 (a.hoursMarkerColor &&& 0x0f)
    else []
  else []

/-- The hours hand ring position, computed at the top of drawClockFace:
`(hours % 12) * 5 + minutes / 12`. -/
def hoursHandPos (hours minutes : Nat) : Nat := (hours % 12) * 5 + minutes / 12

/-- The previous-value trio the renderer compares against
(previousHoursHand, previousMinutes, previousSeconds). -/
structure RenderPrev where
  prevHoursHand : Nat
  prevMinutes : Nat
  prevSeconds : Nat
deriving DecidableEq

/-- The previous values after resetPreviousValues (main.cpp lines 1243-1248),
used to force a full redraw. -/
def resetPrev : RenderPrev := ⟨0, 0, 0⟩

/-- The command stream of one drawClockFace invocation
(main.cpp lines 1228-1240): clear phase, draw phase, marker phase. -/
def drawClockFaceCmds (a : FaceColors) (hours minutes seconds : Nat)
    (pv : RenderPrev) : List RingCmd :=
  let hh := hoursHandPos hours minutes
  clearHands a hh pv.prevHoursHand minutes pv.prevMinutes seconds pv.prevSeconds
    ++ drawHands a hh pv.prevHoursHand minutes pv.prevMinutes seconds pv.prevSeconds
    ++ drawMarkers a hh minutes seconds

/-- One drawClockFace invocation as a transition on (display, previous
values): apply the emitted commands and latch the current values as the new
previous values. -/
def drawClockFaceStep (a : FaceColors) (hours minutes seconds : Nat)
    (d : Display) (pv : RenderPrev) : Display × RenderPrev :=
  (applyRingCmds d (drawClockFaceCmds a hours minutes seconds pv),
   ⟨hoursHandPos hours minutes, minutes, seconds⟩)

/-- Run a sequence of ticks (hours, minutes, seconds triples) through the
differential renderer, starting from a given display and previous values. -/
def runTicks (a : FaceColors) (ticks : List (Nat × Nat × Nat))
    (d : Display) (pv : RenderPrev) : Display × RenderPrev :=
  ticks.foldl (fun st t => drawClockFaceStep a t.1 t.2.1 t.2.2 st.1 st.2) (d, pv)

/-- The full non-incremental recompute of the display from the current time:
exactly what the firmware itself produces after resetPreviousValues and a
cleared ring (the forced full-redraw path). -/
def fullRecompute (a : FaceColors) (hours minutes seconds : Nat) : Display :=
  (drawClockFaceStep a hours minutes seconds allOffDisplay resetPrev).1

/-- A face whose only visible element is a trace-style seconds hand in red
(appearance byte 0x41 = COLOR_RED|COLOR_TRACE); markers and the other two
hands are disabled. -/
def traceDemoFace : FaceColors := ⟨0, 0, 0, 0x41⟩

/-- A debounced button chord as seen by the menu loops: press1 is button 1
alone (Dec / cycle style), press2 is button 2 alone (Confirm / next field),
press3 is button 3 alone (Inc / cycle colour), idle is any other chord
(ignored by the loop bodies). -/
inductive MenuKey where
  | press1
  | press2
  | press3
  | idle
deriving DecidableEq

/-- The in-memory state of the styling menu loop userSetFaceColorAndStyle
(main.cpp lines 1663-1775): the edit cursor `position`, the four appearance
bytes it edits, the change flag, and the loop exit flag. -/
structure StylingState where
  position : Nat
  hoursMarkerColor : Nat
  hoursColor : Nat
  minutesColor : Nat
  secondsColor : Nat
  settingsChangedFlag : Nat
  exitFlag : Bool
deriving DecidableEq

/-- getOptionsByPosition from main.cpp lines 1597-1613 (the high nibble of
the byte selected by the cursor). -/
def getOptionsByPosition (st : StylingState) : Nat :=
  if st.position = 1 then st.hoursColor &&& 0xf0
  else if st.position = 2 then st.minutesColor &&& 0xf0
  else if st.position = 3 then st.secondsColor &&& 0xf0
  else if st.position = 8 then st.hoursMarkerColor &&& 0xf0
  else 0

/-- setOptionsByPosition from main.cpp lines 1615-1628 (replace the high
nibble of the selected byte, keep its low nibble). -/
def setOptionsByPosition (st : StylingState) (value : Nat) : StylingState :=
  if st.position = 1 then
    { st with hoursColor := (st.hoursColor &&& 0x0f) ||| (value &&& 0xf0) }
  else if st.position = 2 then
    { st with minutesColor := (st.minutesColor &&& 0x0f) ||| (value &&& 0xf0) }
  else if st.position = 3 then
    { st with secondsColor := (st.secondsColor &&& 0x0f) ||| (value &&& 0xf0) }
  else if st.position = 8 then
    { st with hoursMarkerColor := (st.hoursMarkerColor &&& 0x0f) ||| (value &&& 0xf0) }
  else st

/-- getColorByPosition from main.cpp lines 1630-1646 (the low nibble of the
byte selected by the cursor). -/
def getColorByPosition (st : StylingState) : Nat :=
  if st.position = 1 then st.hoursColor &&& 0x0f
  else if st.position = 2 then st.minutesColor &&& 0x0f
  else if st.position = 3 then st.secondsColor &&& 0x0f
  else if st.position = 8 then st.hoursMarkerColor &&& 0x0f
  else 0

/-- setColorByPosition from main.cpp lines 1648-1661 (replace the low nibble
of the selected byte, keep its high nibble). -/
def setColorByPosition (st : StylingState) (value : Nat) : StylingState :=
  if st.position = 1 then
    { st with hoursColor := (st.hoursColor &&& 0xf0) ||| (value &&& 0x0f) }
  else if st.position = 2 then
    { st with minutesColor := (st.minutesColor &&& 0xf0) ||| (value &&& 0x0f) }
  else if st.position = 3 then
    { st with secondsColor := (st.secondsColor &&& 0xf0) ||| (value &&& 0x0f) }
  else if st.position = 8 then
    { st with hoursMarkerColor := (st.hoursMarkerColor &&& 0xf0) ||| (value &&& 0x0f) }
  else st

/-- One iteration of the styling menu loop body for a given chord
(main.cpp lines 1680-1736).  press1 cycles the style / marker-density nibble
and sets the change flag; press3 advances the colour nibble with wrap past 7
and sets the change flag; press2 advances the cursor hours → minutes →
seconds → markers and exits past markers.  The blink / redraw code has no
effect on this state or on persistence and is omitted. -/
def stylingStep (st : StylingState) : MenuKey → StylingState
  | .press1 =>
      let value := getOptionsByPosition st
      let value :=
        if st.position = 8 then
          if value = 0x40 then 0x20
          else if value = 0x20 then 0x10
          else 0x40
        else
          if value = 0x10 then 0x40
          else if value = 0x40 then 0x20
          else 0x10
      let st := setOptionsByPosition st value
      { st with settingsChangedFlag := 1 }
  | .press3 =>
      let value := getColorByPosition st
      let value := value + 1
      let value := if value > 7 then 0 else value
      let st := setColorByPosition st value
      { st with settingsChangedFlag := 1 }
  | .press2 =>
      let pos := st.position + 1
      if pos = 4 then { st with position := 8 }
      else if pos > 8 then { st with position := 0, exitFlag := true }
      else { st with position := pos }
  | .idle => st

/-- The styling menu loop: consume chords until the exit flag is raised,
returning the state at exit, or none when the chord list runs out first
(the real loop would keep polling). -/
def stylingRun : List MenuKey → StylingState → Option StylingState
  | [], _ => none
  | k :: ks, st =>
      let st1 := stylingStep st k
      if st1.exitFlag then some st1 else stylingRun ks st1

/-- The EEPROM writes performed on styling menu exit
(main.cpp lines 1759-1764): the active face record of four bytes when the
change flag is set, nothing otherwise.  These are the only EEPROM writes in
userSetFaceColorAndStyle. -/
def stylingCommitWrites (clockFace : Nat) (st : StylingState) : List (Nat × Nat) :=
  if st.settingsChangedFlag > 0 then
    [(10 + clockFace * 10, st.hoursMarkerColor),
     (10 + clockFace * 10 + 1, st.hoursColor),
     (10 + clockFace * 10 + 2, st.minutesColor),
     (10 + clockFace * 10 + 3, st.secondsColor)]
  else []

/-- The styling menu entry state: cursor on the hours field, change flag
clear, exit flag clear (main.cpp lines 1663-1667). -/
def initStylingState (hm hc mc sc : Nat) : StylingState := ⟨1, hm, hc, mc, sc, 0, false⟩

/-- The four appearance bytes of a styling state as one tuple. -/
def stColors (st : StylingState) : Nat × Nat × Nat × Nat :=
  (st.hoursMarkerColor, st.hoursColor, st.minutesColor, st.secondsColor)

/-- The in-memory state edited by the settings menu userSettings:
the active face index, the packed display-mode / colon byte, the alternation
period, plus the minutesColor global that line 2001 of the source reads. -/
structure SettingsMenuState where
  clockFace : Nat
  ledSegmentsSettings : Nat
  ledSegmentsToggleSeconds : Nat
  minutesColor : Nat
deriving DecidableEq

/-- getSettingByPosition from main.cpp lines 1978-1994. -/
def getSettingByPosition (st : SettingsMenuState) (position : Nat) : Nat :=
  if position = 0x10 then st.clockFace
  else if position = 0x11 then st.ledSegmentsSettings &&& 0xf0
  else if position = 0x12 then st.ledSegmentsToggleSeconds
  else if position = 0x13 then st.ledSegmentsSettings &&& 0x0f
  else 0

/-- setSettingByPosition from main.cpp lines 1996-2009, including the
source text of line 2001 verbatim: the display-mode case composes the new
settings byte from `(minutesColor & 0x0f) | (value & 0xf0)`. -/
def setSettingByPosition (st : SettingsMenuState) (position value : Nat) :
    SettingsMenuState :=
  if position = 0x10 then { st with clockFace := value }
  else if position = 0x11 then
    { st with ledSegmentsSettings := (st.minutesColor &&& 0x0f) ||| (value &&& 0xf0) }
  else if position = 0x12 then { st with ledSegmentsToggleSeconds := value }
  else if position = 0x13 then
    { st with ledSegmentsSettings := (st.ledSegmentsSettings &&& 0xf0) ||| (value &&& 0x0f) }
  else st

/-- The press1 (Dec) cycle of the display-mode field in userSettings
(main.cpp lines 2053-2062): TimeAndDate → Time → Date → None → TimeAndDate,
on the high-nibble values 0x30 / 0x10 / 0x20 / 0x00. -/
def settingsDecDisplayValue (value : Nat) : Nat :=
  if value = 0x30 then 0x10
  else if value = 0x10 then 0x20
  else if value = 0x20 then 0x00
  else 0x30

/-- The press3 (Inc) cycle of the display-mode field in userSettings
(main.cpp lines 2087-2096). -/
def settingsIncDisplayValue (value : Nat) : Nat :=
  if value = 0x30 then 0x00
  else if value = 0x00 then 0x20
  else if value = 0x20 then 0x10
  else 0x30

/-- A full Dec edit of the display-mode field: read the field, cycle it,
store it back through setSettingByPosition. -/
def settingsEditDisplayDec (st : SettingsMenuState) : SettingsMenuState :=
  setSettingByPosition st 0x11 (settingsDecDisplayValue (getSettingByPosition st 0x11))

/-- A full Inc edit of the display-mode field. -/
def settingsEditDisplayInc (st : SettingsMenuState) : SettingsMenuState :=
  setSettingByPosition st 0x11 (settingsIncDisplayValue (getSettingByPosition st 0x11))

/-- A settings-menu state with display mode TimeAndDate (0x30), colon mode
FlashEverySecond (0x02) and a minutes hand byte 0x24 (COLOR_BLUE|COLOR_DOT,
low nibble 4). -/
def settingsBugState : SettingsMenuState := ⟨0, 0x32, 5, 0x24⟩

/-- The press1 (Dec) transition of the face-index field inside userSettings
(main.cpp lines 2045-2052): byte decrement, then clamp to 0 when the result
is at or above 10. -/
def settingsFaceDec (clockFace : Nat) : Nat :=
  let value := (clockFace + 255) % 256
  if value ≥ 10 then 0 else value

/-- The press3 (Inc) transition of the face-index field inside userSettings
(main.cpp lines 2079-2086): byte increment, then clamp to 9 when the result
is at or above 10. -/
def settingsFaceInc (clockFace : Nat) : Nat :=
  let value := (clockFace + 1) % 256
  if value ≥ 10 then 9 else value

/-- The button-1 face change of the normal-mode loop
(main.cpp lines 2242-2248): byte decrement with wrap 0 → 9. -/
def normalModeFacePrev (clockFace : Nat) : Nat :=
  let value := (clockFace + 255) % 256
  if value ≥ 10 then 9 else value

/-- The button-3 face change of the normal-mode loop
(main.cpp lines 2250-2256): byte increment with wrap 9 → 0. -/
def normalModeFaceNext (clockFace : Nat) : Nat :=
  let value := (clockFace + 1) % 256
  if value ≥ 10 then 0 else value

/-- getDaysMaxBasedOnMonthAndLeapYear from main.cpp lines 1839-1850:
30 days for months 4, 6, 9 and 11; February 29 when years % 4 == 0 and 28
otherwise; 31 days for every other month value. -/
def getDaysMaxBasedOnMonthAndLeapYear (months years : Nat) : Nat :=
  if months = 4 ∨ months = 6 ∨ months = 9 ∨ months = 11 then 30
  else if months = 2 then (if years % 4 = 0 then 29 else 28)
  else 31

/-- The press3 (Inc) transition of the day field in userSetTimeAndDate
(main.cpp lines 1887-1899): past the recomputed month maximum the value
wraps to the minimum 1 (valueTimeDateMin for the day field). -/
def timeDateIncDay (months years day : Nat) : Nat :=
  if day + 1 > getDaysMaxBasedOnMonthAndLeapYear months years then 1 else day + 1

/-- The press1 (Dec) transition of the day field in userSetTimeAndDate
(main.cpp lines 1871-1885): below the minimum 1 the value wraps to the
recomputed month maximum. -/
def timeDateDecDay (months years day : Nat) : Nat :=
  if day - 1 < 1 then getDaysMaxBasedOnMonthAndLeapYear months years else day - 1

/-- A command that can only extinguish LEDs: a write of colour 0 or a
whole-ring off. -/
def Zeroing : RingCmd → Prop
  | .write _ _ color => color = 0
  | .off _ => True

/-- A command that is a write at a position at most `bound` (in particular
not a whole-ring off). -/
def WriteBelow (bound : Nat) : RingCmd → Prop
  | .write _ pos _ => pos ≤ bound
  | .off _ => False

/-- The day-field maximum exactly as the specification states it: 29 or 28
for February by the 4-year rule, 30 for April, June, September and November,
31 otherwise. -/
def specDaysMax (months years : Nat) : Nat :=
  if months = 2 then (if years % 4 = 0 then 29 else 28)
  else if months = 4 ∨ months = 6 ∨ months = 9 ∨ months = 11 then 30
  else 31

/-- Claim C1.  The claim states that after every tick sequence the lit ring
positions equal those of a full non-incremental recompute from the current
time and appearance, and in particular that no stale colour from a vacated
hand position remains lit.  The code violates this: with markers disabled
and a red trace seconds hand, after the ticks seconds = 59, 0, 1 the hand
has vacated ring position 0, yet position 0 of the seconds ring is still lit
red (colour 1), while the firmware does not light position 0 when it
recomputes the face from the same current state (seconds = 1) after a
forced redraw. -/
theorem runTicks_trace_stale_position_zero :
    ((runTicks traceDemoFace [(0, 0, 59), (0, 0, 0), (0, 0, 1)] allOffDisplay resetPrev).1 0 0 = 1
      ∧ fullRecompute traceDemoFace 0 0 1 0 0 = 0)
    ∧ ¬ ((runTicks traceDemoFace [(0, 0, 59), (0, 0, 0), (0, 0, 1)] allOffDisplay resetPrev).1 0 0 ≠ 0
          ↔ fullRecompute traceDemoFace 0 0 1 0 0 ≠ 0) := by
  decide

/-- Claim C4.  The claim states that a stored face-index byte outside
[0,10) loads as 0.  The code only resets values strictly greater than 10
(main.cpp line 1393 uses `>` where `>=` was needed), so the stored byte 10,
which is outside [0,10), survives validation unchanged. -/
theorem loadSettings_face_ten_not_reset :
    (loadSettingsOrFactoryDefaults eepromFace10).clockFace = 10
    ∧ ¬ (loadSettingsOrFactoryDefaults eepromFace10).clockFace < 10
    ∧ (loadSettingsOrFactoryDefaults eepromFace10).clockFace ≠ 0 := by
  decide

/-- Claim C10.  The claim states that after load-time validation every
access into the 10-entry factory table uses an index below 10.  With the
stored face-index byte 10 and an all-zero face record, validation keeps the
index 10 and the factory-default substitution indexes the table out of
bounds (the modelled access returns none). -/
theorem factory_table_index_out_of_bounds :
    (loadSettingsOrFactoryDefaults eepromFace10).clockFace = 10
    ∧ ¬ (loadSettingsOrFactoryDefaults eepromFace10).clockFace < DEFAULT_FACTORY_COLORS.length
    ∧ loadFaceSettingsOrFactoryDefaults eepromFace10
        (loadSettingsOrFactoryDefaults eepromFace10).clockFace = none := by
  decide

/-- Claim C5.  The claim states that editing the display-mode field leaves
the colon nibble of the packed settings byte unchanged.  The code composes
the new byte from the low nibble of minutesColor (main.cpp line 2001), so a
Dec edit from settings byte 0x32 with minutesColor 0x24 yields 0x14: the
colon nibble changes from 2 to 4 while only the display nibble may change
according to the claim. -/
theorem settings_displayMode_edit_clobbers_colon :
    (settingsEditDisplayDec settingsBugState).ledSegmentsSettings = 0x14
    ∧ (settingsEditDisplayDec settingsBugState).ledSegmentsSettings &&& 0x0f
        ≠ settingsBugState.ledSegmentsSettings &&& 0x0f
    ∧ (settingsEditDisplayDec settingsBugState).ledSegmentsSettings &&& 0x0f
        = settingsBugState.minutesColor &&& 0x0f := by
  decide

/-- Claim C6, counterexample.  The claim states that in the settings menu
the face index wraps: Inc at 9 gives 0 and Dec at 0 gives 9.  The code
clamps instead: Inc at 9 stays 9 and Dec at 0 stays 0. -/
theorem settingsFace_wrap_fails :
    settingsFaceInc 9 = 9 ∧ settingsFaceInc 9 ≠ 0
    ∧ settingsFaceDec 0 = 0 ∧ settingsFaceDec 0 ≠ 9 := by
  decide

/-- Claim C6, amended.  In the settings menu the face index clamps at its
bounds (Inc at 9 stays 9, Dec at 0 stays 0, interior values move by one);
the described wrap 9 → 0 / 0 → 9 is the behaviour of the normal-mode
face-selection buttons, not of the settings menu. -/
theorem settingsFace_clamps_normalMode_wraps :
    settingsFaceInc 9 = 9 ∧ settingsFaceDec 0 = 0
    ∧ settingsFaceInc 5 = 6 ∧ settingsFaceDec 5 = 4
    ∧ normalModeFaceNext 9 = 0 ∧ normalModeFacePrev 0 = 9
    ∧ normalModeFaceNext 5 = 6 ∧ normalModeFacePrev 5 = 4 := by
  decide

/-- Claim C8, counterexample.  The claim states that face index 3 with an
all-zero stored record loads the factory default
(ORANGE|TWELTH, BLANK|DOT, GREEN|TRACE, BLUE|TRACE) = (0x43, 0x20, 0x42, 0x44).
The code substitutes row 3 of DEFAULT_FACTORY_COLORS, which is
(RED|QUARTERS, BLANK|DOT, BLANK|DOT, BLUE|TRACE) = (0x21, 0x20, 0x20, 0x44),
a different record. -/
theorem loadFace_three_factory_mismatch :
    loadFaceSettingsOrFactoryDefaults zeroEeprom 3 = some ⟨0x21, 0x20, 0x20, 0x44⟩
    ∧ loadFaceSettingsOrFactoryDefaults zeroEeprom 3 ≠ some ⟨0x43, 0x20, 0x42, 0x44⟩ := by
  decide

/-- Claim C8, amended.  The record (ORANGE|TWELTH, BLANK|DOT, GREEN|TRACE,
BLUE|TRACE) named by the claim is the factory default of face index 4, and
it is the record substituted when face 4 is loaded with an all-zero stored
record; face 3 instead receives (RED|QUARTERS, BLANK|DOT, BLANK|DOT,
BLUE|TRACE). -/
theorem loadFace_four_yields_claimed_record :
    loadFaceSettingsOrFactoryDefaults zeroEeprom 4 = some ⟨0x43, 0x20, 0x42, 0x44⟩
    ∧ DEFAULT_FACTORY_COLORS.get? 3 = some ⟨0x21, 0x20, 0x20, 0x44⟩ := by
  decide

/-- Claim C9.  The day-field maximum recomputed by the firmware equals the
specified rule (February 29 when years % 4 = 0 else 28; 30 for months 4, 6,
9, 11; 31 otherwise), an Inc past that maximum wraps the day to 1, and a Dec
below 1 wraps the day to that maximum. -/
theorem daysMax_and_day_wrap (months years : Nat) (h1 : 1 ≤ months) (h2 : months ≤ 12) :
    getDaysMaxBasedOnMonthAndLeapYear months years = specDaysMax months years
    ∧ timeDateIncDay months years (getDaysMaxBasedOnMonthAndLeapYear months years) = 1
    ∧ timeDateDecDay months years 1 = getDaysMaxBasedOnMonthAndLeapYear months years := by
  refine ⟨?_, ?_, ?_⟩
  · interval_cases months <;> simp [getDaysMaxBasedOnMonthAndLeapYear, specDaysMax]
  · unfold timeDateIncDay
    simp
  · unfold timeDateDecDay
    simp

/-- Witness for daysMax_and_day_wrap at February of a leap year
(months = 2, years = 24). -/
theorem daysMax_and_day_wrap_w :
    getDaysMaxBasedOnMonthAndLeapYear 2 24 = specDaysMax 2 24
    ∧ timeDateIncDay 2 24 (getDaysMaxBasedOnMonthAndLeapYear 2 24) = 1
    ∧ timeDateDecDay 2 24 1 = getDaysMaxBasedOnMonthAndLeapYear 2 24 :=
  daysMax_and_day_wrap 2 24 (by decide) (by decide)

/-- Claim C2.  For every face index below 10, when the four stored
appearance bytes all read back zero the loader substitutes the
factory-default record of that same face index, and the substituted record
is never an all-hands-off appearance: at least one hand keeps a nonzero
colour nibble (in fact the seconds hand does in every factory row). -/
theorem loadFaceSettings_allZero_yields_factory (eeprom : Nat → Nat) (f : Nat)
    (hf : f < 10)
    (h0 : eeprom (10 + f * 10) = 0) (h1 : eeprom (10 + f * 10 + 1) = 0)
    (h2 : eeprom (10 + f * 10 + 2) = 0) (h3 : eeprom (10 + f * 10 + 3) = 0) :
    loadFaceSettingsOrFactoryDefaults eeprom f = DEFAULT_FACTORY_COLORS.get? f
    ∧ ∃ fc, loadFaceSettingsOrFactoryDefaults eeprom f = some fc
        ∧ ¬ (fc.hoursColor &&& 0x0f = 0 ∧ fc.minutesColor &&& 0x0f = 0
              ∧ fc.secondsColor &&& 0x0f = 0) := by
  have hload : loadFaceSettingsOrFactoryDefaults eeprom f = DEFAULT_FACTORY_COLORS.get? f := by
    simp only [loadFaceSettingsOrFactoryDefaults, h0, h1, h2, h3]
    simp
  refine ⟨hload, ?_⟩
  rw [hload]
  interval_cases f <;> exact ⟨_, rfl, by decide⟩

/-- Witness for loadFaceSettings_allZero_yields_factory at face index 2 of
the all-zero EEPROM image. -/
theorem loadFaceSettings_allZero_yields_factory_w :
    loadFaceSettingsOrFactoryDefaults zeroEeprom 2 = DEFAULT_FACTORY_COLORS.get? 2
    ∧ ∃ fc, loadFaceSettingsOrFactoryDefaults zeroEeprom 2 = some fc
        ∧ ¬ (fc.hoursColor &&& 0x0f = 0 ∧ fc.minutesColor &&& 0x0f = 0
              ∧ fc.secondsColor &&& 0x0f = 0) :=
  loadFaceSettings_allZero_yields_factory zeroEeprom 2 (by decide) rfl rfl rfl rfl

/-- A single styling-menu loop iteration either raises the change flag
(press1 / press3, which always modify the selected field) or leaves the four
appearance bytes and the change flag untouched (press2 / ignored chords). -/
theorem stylingStep_cases (st : StylingState) (k : MenuKey) :
    (stylingStep st k).settingsChangedFlag = 1
    ∨ (stColors (stylingStep st k) = stColors st
        ∧ (stylingStep st k).settingsChangedFlag = st.settingsChangedFlag) := by
  cases k
  case press1 => left; rfl
  case press3 => left; rfl
  case press2 =>
    right
    simp only [stylingStep]
    split_ifs <;> exact ⟨rfl, rfl⟩
  case idle => right; exact ⟨rfl, rfl⟩

/-- If a styling session ends with the change flag clear, then no edit chord
was processed: the four appearance bytes at exit equal those at entry and
the flag was already clear at entry. -/
theorem stylingRun_flag_zero (keys : List MenuKey) :
    ∀ st st', stylingRun keys st = some st' → st'.settingsChangedFlag = 0 →
      stColors st' = stColors st ∧ st.settingsChangedFlag = 0 := by
  induction keys with
  | nil =>
    intro st st' h _
    simp [stylingRun] at h
  | cons k ks ih =>
    intro st st' h hflag
    simp only [stylingRun] at h
    rcases stylingStep_cases st k with h1 | ⟨hcol, hfl⟩
    · split at h
      · cases h
        rw [hflag] at h1
        cases h1
      · rcases ih _ _ h hflag with ⟨_, hz⟩
        rw [hz] at h1
        cases h1
    · split at h
      · cases h
        exact ⟨hcol, hfl ▸ hflag⟩
      · rcases ih _ _ h hflag with ⟨hc2, hz⟩
        exact ⟨hc2.trans hcol, hfl ▸ hz⟩

/-- Claim C3.  A styling-menu session that reaches its exit without any edit
(change flag still clear, which by stylingRun_flag_zero means every field
kept its entry value throughout) performs no EEPROM write on exit, and a
session with at least one edit writes exactly the one 4-byte record of the
active face, at offsets 10 + 10*faceIndex .. 10 + 10*faceIndex + 3, and
nothing else (the commit list models every EEPROM write the source function
performs). -/
theorem stylingSession_commit_writes (keys : List MenuKey) (f hm hc mc sc : Nat)
    (st : StylingState)
    (hrun : stylingRun keys (initStylingState hm hc mc sc) = some st) :
    (st.settingsChangedFlag = 0 →
      stylingCommitWrites f st = [] ∧ stColors st = (hm, hc, mc, sc))
    ∧ (st.settingsChangedFlag ≠ 0 →
      stylingCommitWrites f st =
        [(10 + f * 10, st.hoursMarkerColor), (10 + f * 10 + 1, st.hoursColor),
         (10 + f * 10 + 2, st.minutesColor), (10 + f * 10 + 3, st.secondsColor)]) := by
  constructor
  · intro h0
    have hz := stylingRun_flag_zero keys _ _ hrun h0
    refine ⟨by simp [stylingCommitWrites, h0], ?_⟩
    rw [hz.1]
    rfl
  · intro hne
    simp [stylingCommitWrites, Nat.pos_of_ne_zero hne]

/-- Witness for stylingSession_commit_writes: a session of four confirm
presses (hours → minutes → seconds → markers → exit) changes nothing and
writes nothing. -/
theorem stylingSession_commit_writes_w :
    (stylingCommitWrites 3 (⟨0, 1, 2, 3, 4, 0, true⟩ : StylingState) = []
      ∧ stColors (⟨0, 1, 2, 3, 4, 0, true⟩ : StylingState) = (1, 2, 3, 4)) :=
  (stylingSession_commit_writes [MenuKey.press2, MenuKey.press2, MenuKey.press2, MenuKey.press2]
    3 1 2 3 4 ⟨0, 1, 2, 3, 4, 0, true⟩ (by decide)).1 rfl

/-- Applying an appended command list is applying the parts in order. -/
theorem applyRingCmds_append (d : Display) (xs ys : List RingCmd) :
    applyRingCmds d (xs ++ ys) = applyRingCmds (applyRingCmds d xs) ys := by
  simp [applyRingCmds]

/-- A zeroing command keeps an extinguished LED extinguished. -/
theorem applyRingCmd_zeroing (d : Display) (c : RingCmd) (hz : Zeroing c) (rb p : Nat)
    (hd : d rb p = 0) : applyRingCmd d c rb p = 0 := by
  cases c with
  | write mask pos color =>
    simp only [Zeroing] at hz
    simp only [applyRingCmd]
    split_ifs <;> simp [hz, hd]
  | off mask =>
    simp only [applyRingCmd]
    split_ifs <;> simp [hd]

/-- A list of zeroing commands keeps an extinguished LED extinguished. -/
theorem applyRingCmds_zeroing (cs : List RingCmd) :
    ∀ d : Display, (∀ c ∈ cs, Zeroing c) → ∀ rb p : Nat, d rb p = 0 →
      applyRingCmds d cs rb p = 0 := by
  induction cs with
  | nil => intro d _ rb p hd; exact hd
  | cons c cs ih =>
    intro d hz rb p hd
    have h1 : applyRingCmd d c rb p = 0 :=
      applyRingCmd_zeroing d c (hz c (by simp)) rb p hd
    exact ih (applyRingCmd d c) (fun x hx => hz x (by simp [hx])) rb p h1

/-- Every command of a clear-phase hand block only extinguishes LEDs. -/
theorem clearHandBlock_zeroing (color cur prev rm hm : Nat) :
    ∀ c ∈ clearHandBlock color cur prev rm hm, Zeroing c := by
  intro c hc
  unfold clearHandBlock at hc
  split_ifs at hc <;> simp at hc <;> try (subst hc; trivial)
  · rcases hc with ⟨i, _, rfl⟩; trivial

/-- Every command of the whole clear phase only extinguishes LEDs. -/
theorem clearHands_zeroing (a : FaceColors) (hh ph m pm s ps : Nat) :
    ∀ c ∈ clearHands a hh ph m pm s ps, Zeroing c := by
  intro c hc
  simp only [clearHands, handClearCmds, List.mem_append] at hc
  rcases hc with (hc | hc) | hc
  · exact clearHandBlock_zeroing _ _ _ _ _ c hc
  · exact clearHandBlock_zeroing _ _ _ _ _ c hc
  · exact clearHandBlock_zeroing _ _ _ _ _ c hc

/-- The clear block of a trace hand whose value moved to 0 is exactly the
whole-ring off command for that hand ring. -/
theorem clearHandBlock_at_zero (color prev rm hm : Nat)
    (htrace : Nat.testBit color 6 = true) (hcol : color &&& 0x0f ≠ 0) (hprev : prev ≠ 0) :
    clearHandBlock color 0 prev rm hm = [RingCmd.off rm] := by
  simp [clearHandBlock, hcol, htrace, Ne.symm hprev]

/-- A list of writes at positions at most `bound` leaves every position
above `bound` untouched on every ring. -/
theorem applyRingCmds_writeBelow (cs : List RingCmd) (bound : Nat) :
    ∀ d : Display, (∀ c ∈ cs, WriteBelow bound c) → ∀ rb p : Nat, bound < p →
      applyRingCmds d cs rb p = d rb p := by
  induction cs with
  | nil => intro d _ rb p _; rfl
  | cons c cs ih =>
    intro d hw rb p hp
    have step : applyRingCmd d c rb p = d rb p := by
      cases c with
      | write mask pos color =>
        have hb := hw (RingCmd.write mask pos color) (List.mem_cons_self _ _)
        simp only [WriteBelow] at hb
        simp only [applyRingCmd]
        rw [if_neg]
        intro hand
        omega
      | off mask =>
        have hb := hw (RingCmd.off mask) (List.mem_cons_self _ _)
        simp only [WriteBelow] at hb
    rw [applyRingCmds, List.foldl_cons, ← applyRingCmds]
    rw [ih (applyRingCmd d c) (fun x hx => hw x (by simp [hx])) rb p hp, step]

/-- When a hand moved forward, its clear block only writes at positions at
most the new value (the descending clear loop is empty and the remaining
branches write at the previous value, which is below the new one). -/
theorem clearHandBlock_writeBelow (color cur prev rm hm : Nat) (h : prev < cur) :
    ∀ c ∈ clearHandBlock color cur prev rm hm, WriteBelow cur c := by
  intro c hc
  unfold clearHandBlock at hc
  split_ifs at hc with h1 h2 h3 h4 h5 h6 <;> simp at hc
  · omega
  · rcases hc with ⟨i, hi, rfl⟩; simp [WriteBelow]; omega
  · subst hc; simp [WriteBelow]; omega
  · subst hc; simp [WriteBelow]; omega

/-- Every write of an ascending trace fill is at a position at most the
current hand value. -/
theorem traceFill_writeBelow (ringMask start cur color : Nat) :
    ∀ c ∈ traceFill ringMask start cur color, WriteBelow cur c := by
  intro c hc
  simp only [traceFill, List.mem_map, List.mem_range] at hc
  rcases hc with ⟨i, hi, rfl⟩
  simp only [WriteBelow]
  omega

/-- For a trace-style minutes hand, every command of the minutes draw block
writes at a position at most the current minutes value (the fill stops at
the current value and the redraw clauses are guarded by
`minutes >= previous position`). -/
theorem drawMinutesPart_writeBelow (a : FaceColors) (hh ph m pm s ps : Nat)
    (htrace : Nat.testBit a.minutesColor 6 = true) :
    ∀ c ∈ drawMinutesPart a hh ph m pm s ps, WriteBelow m c := by
  intro c hc
  simp only [drawMinutesPart, htrace, if_true, List.mem_append] at hc
  split_ifs at hc <;> simp only [List.mem_append, List.not_mem_nil, or_false, false_or] at hc
  all_goals
    first
    | exact absurd hc (List.not_mem_nil c)
    | (rcases hc with hc | hc
       <;> first
        | exact traceFill_writeBelow _ _ _ _ c hc
        | (rcases hc with hc | hc
           <;> first
            | exact traceFill_writeBelow _ _ _ _ c hc
            | (simp at hc; subst hc; simp only [WriteBelow]; omega))
        | (simp at hc; subst hc; simp only [WriteBelow]; omega))
    | exact traceFill_writeBelow _ _ _ _ c hc
    | (simp at hc; subst hc; simp only [WriteBelow]; omega)

/-- For a trace-style hours hand, every command of the hours draw block
writes at a position at most the current hours-hand value. -/
theorem drawHoursPart_writeBelow (a : FaceColors) (hh ph m pm s ps : Nat)
    (htrace : Nat.testBit a.hoursColor 6 = true) :
    ∀ c ∈ drawHoursPart a hh ph m pm s ps, WriteBelow hh c := by
  intro c hc
  simp only [drawHoursPart, htrace, if_true, List.mem_append] at hc
  split_ifs at hc <;> simp only [List.mem_append, List.not_mem_nil, or_false, false_or] at hc
  all_goals
    first
    | exact absurd hc (List.not_mem_nil c)
    | (rcases hc with hc | hc
       <;> first
        | exact traceFill_writeBelow _ _ _ _ c hc
        | (rcases hc with hc | hc
           <;> first
            | exact traceFill_writeBelow _ _ _ _ c hc
            | (simp at hc; subst hc; simp only [WriteBelow]; omega))
        | (simp at hc; subst hc; simp only [WriteBelow]; omega))
    | exact traceFill_writeBelow _ _ _ _ c hc
    | (simp at hc; subst hc; simp only [WriteBelow]; omega)

/-- For a trace-style seconds hand, every command of the seconds draw block
writes at a position at most the current seconds value. -/
theorem drawSecondsPart_writeBelow (a : FaceColors) (hh ph m pm s ps : Nat)
    (htrace : Nat.testBit a.secondsColor 6 = true) :
    ∀ c ∈ drawSecondsPart a hh ph m pm s ps, WriteBelow s c := by
  intro c hc
  simp only [drawSecondsPart, htrace, if_true, List.mem_append] at hc
  split_ifs at hc <;> simp only [List.mem_append, List.not_mem_nil, or_false, false_or] at hc
  all_goals
    first
    | exact absurd hc (List.not_mem_nil c)
    | (rcases hc with hc | hc
       <;> first
        | exact traceFill_writeBelow _ _ _ _ c hc
        | (simp at hc; subst hc; simp only [WriteBelow]; omega))
    | exact traceFill_writeBelow _ _ _ _ c hc
    | (simp at hc; subst hc; simp only [WriteBelow]; omega)

/-- Claim C7.  For every hand with trace style and nonzero colour:
(a) when its value changes to 0 the clear phase leaves that hand's entire
ring extinguished (the hand's own block emits the whole-ring off command and
every other clear command only extinguishes LEDs); (b) when the hand moves
forward, its own clear and draw blocks leave every ring position beyond the
new value untouched, so no position remains lit for that hand beyond what
the new value implies. -/
theorem trace_clear_zero_and_forward_bounded (a : FaceColors) (h : Hand)
    (hh ph m pm s ps : Nat) (d : Display)
    (htrace : Nat.testBit (handColor a h) 6 = true)
    (hcol : handColor a h &&& 0x0f ≠ 0) :
    (handCur hh m s h = 0 → handPrev ph pm ps h ≠ 0 →
      ∀ p, applyRingCmds d (clearHands a hh ph m pm s ps) (handRingBit h) p = 0)
    ∧ (handPrev ph pm ps h < handCur hh m s h →
      ∀ p, handCur hh m s h < p →
        applyRingCmds d
          (handClearCmds a hh ph m pm s ps h ++ handDrawCmds a hh ph m pm s ps h)
          (handRingBit h) p = d (handRingBit h) p) := by
  cases h with
  | hours =>
    constructor
    · intro hcur hprev p
      simp only [handCur] at hcur
      simp only [handPrev] at hprev
      subst hcur
      have hB : clearHandBlock a.hoursColor 0 ph 4 6 = [RingCmd.off 4] :=
        clearHandBlock_at_zero _ _ _ _ htrace hcol hprev
      simp only [clearHands, handClearCmds, handRingBit]
      rw [applyRingCmds_append, applyRingCmds_append, hB]
      have base : applyRingCmds d [RingCmd.off 4] 2 p = 0 := by
        simp [applyRingCmds, applyRingCmd, inRing, show Nat.testBit 4 2 = true from rfl]
      have mid := applyRingCmds_zeroing (clearHandBlock a.minutesColor m pm 2 7)
        (applyRingCmds d [RingCmd.off 4]) (clearHandBlock_zeroing _ _ _ _ _) 2 p base
      exact applyRingCmds_zeroing (clearHandBlock a.secondsColor s ps 1 7)
        _ (clearHandBlock_zeroing _ _ _ _ _) 2 p mid
    · intro hlt p hp
      simp only [handCur, handPrev] at hlt hp
      simp only [handClearCmds, handDrawCmds, handRingBit]
      refine applyRingCmds_writeBelow _ hh _ ?_ 2 p hp
      intro c hc
      rcases List.mem_append.mp hc with hc | hc
      · exact clearHandBlock_writeBelow _ _ _ _ _ hlt c hc
      · exact drawHoursPart_writeBelow a hh ph m pm s ps htrace c hc
  | minutes =>
    constructor
    · intro hcur hprev p
      simp only [handCur] at hcur
      simp only [handPrev] at hprev
      subst hcur
      have hB : clearHandBlock a.minutesColor 0 pm 2 7 = [RingCmd.off 2] :=
        clearHandBlock_at_zero _ _ _ _ htrace hcol hprev
      simp only [clearHands, handClearCmds, handRingBit]
      rw [applyRingCmds_append, applyRingCmds_append]
      have base : applyRingCmds (applyRingCmds d (clearHandBlock a.hoursColor hh ph 4 6))
          (clearHandBlock a.minutesColor 0 pm 2 7) 1 p = 0 := by
        rw [hB]
        simp [applyRingCmds, applyRingCmd, inRing, show Nat.testBit 2 1 = true from rfl]
      exact applyRingCmds_zeroing (clearHandBlock a.secondsColor s ps 1 7)
        _ (clearHandBlock_zeroing _ _ _ _ _) 1 p base
    · intro hlt p hp
      simp only [handCur, handPrev] at hlt hp
      simp only [handClearCmds, handDrawCmds, handRingBit]
      refine applyRingCmds_writeBelow _ m _ ?_ 1 p hp
      intro c hc
      rcases List.mem_append.mp hc with hc | hc
      · exact clearHandBlock_writeBelow _ _ _ _ _ hlt c hc
      · exact drawMinutesPart_writeBelow a hh ph m pm s ps htrace c hc
  | seconds =>
    constructor
    · intro hcur hprev p
      simp only [handCur] at hcur
      simp only [handPrev] at hprev
      subst hcur
      have hB : clearHandBlock a.secondsColor 0 ps 1 7 = [RingCmd.off 1] :=
        clearHandBlock_at_zero _ _ _ _ htrace hcol hprev
      simp only [clearHands, handClearCmds, handRingBit]
      rw [applyRingCmds_append, hB]
      simp [applyRingCmds, applyRingCmd, inRing, show Nat.testBit 1 0 = true from rfl]
    · intro hlt p hp
      simp only [handCur, handPrev] at hlt hp
      simp only [handClearCmds, handDrawCmds, handRingBit]
      refine applyRingCmds_writeBelow _ s _ ?_ 0 p hp
      intro c hc
      rcases List.mem_append.mp hc with hc | hc
      · exact clearHandBlock_writeBelow _ _ _ _ _ hlt c hc
      · exact drawSecondsPart_writeBelow a hh ph m pm s ps htrace c hc

/-- Witness for trace_clear_zero_and_forward_bounded: the red trace seconds
hand moving from 5 to 0 leaves seconds-ring position 7 extinguished after
the clear phase. -/
theorem trace_clear_zero_and_forward_bounded_w :
    applyRingCmds allOffDisplay (clearHands traceDemoFace 0 0 0 0 0 5) 0 7 = 0 :=
  (trace_clear_zero_and_forward_bounded traceDemoFace Hand.seconds 0 0 0 0 0 5 allOffDisplay
    (by decide) (by decide)).1 rfl (by decide) 7

end ClockOS
